import Mathlib

/-!
A shallow embedding of the WebSocket connection core (`websocket.go`):
the one-shot close latch, the four channel-based binary slots, the frame
write path, the message reader and writer handles, the ping registry and
the read-limit snapshot, together with theorems checking the
claims of the specification about them.

Go `select` nondeterminism (several simultaneously ready cases) is made
explicit: each modelled operation takes choice parameters, and a
readiness predicate (`acqValid`, `rdrValid`) states which choices a real
execution can take.  Stream I/O outcomes are oracle parameters.  States
reached only transiently inside one operation (a slot held across a
straight-line region and released before returning) are collapsed to the
entry and exit states of the operation.
-/

namespace WS

/-- Errors, mirroring the Go error values the connection core creates:
plain stream errors, context cancellation, `CloseError\x7bcode, reason\x7d`,
usage errors, and `xerrors.Errorf` wrapping; `wrappedNil` is the result
of wrapping a nil error, as `Conn.close` does when both candidate causes
are nil. -/
inductive Err where
  | ioError (tag : String)
  | ctxCanceled
  | closeError (code : Nat) (reason : String)
  | usage (tag : String)
  | wrapped (msg : String) (e : Err)
  | wrappedNil (msg : String)
deriving DecidableEq

/-- The first non-nil of two optional errors (caller error preferred),
as in `Conn.close`: `cerr := c.closer.Close(); if err != nil cerr = err`. -/
def firstNonNil (a b : Option Err) : Option Err :=
  match a with
  | some e => some e
  | none => b

/-- Wrapping an optional cause, as `xerrors.Errorf` with a possibly nil
wrapped error. -/
def wrapO (msg : String) (o : Option Err) : Err :=
  match o with
  | some e => Err.wrapped msg e
  | none => Err.wrappedNil msg

/-- Whether `e` is `t` or wraps `t` through a chain of
`xerrors.Errorf` wrappings. -/
def Err.unwrapsTo : Err → Err → Bool
  | Err.wrapped m e2, t => if Err.wrapped m e2 = t then true else Err.unwrapsTo e2 t
  | e, t => if e = t then true else false

/-- The mutable connection state of `Conn` that the modelled operations
touch: the closed latch and terminal error, the four capacity-1 lock
channels (`true` = a token is in the channel, i.e. the slot is taken),
the atomically accessed message read limit, and the active-pings key
set.  The immutable role bit `client` is carried along; the bufio
handles, the timeout-loop channels and the `readMsg`/`readMsgDone`
rendezvous channels are represented by the oracle/choice parameters of
the operations that use them. -/
structure ConnState where
  client : Bool
  closed : Bool
  closeErr : Option Err
  writeMsgLock : Bool
  writeFrameLock : Bool
  readMsgLock : Bool
  readFrameLock : Bool
  msgReadLimit : Int
  activePings : List String
deriving DecidableEq

/-- The terminal error observed by operations after the closed latch has
fired (`c.closeErr`; it is always set before `close(c.closed)`). -/
def terminalOf (s : ConnState) : Err :=
  s.closeErr.getD (Err.wrappedNil ("websocket closed"))

/-- Model of `Conn.close(err)`: under `closeOnce`, close the stream
(whose result is the oracle `streamErr`), record the first non-nil of
caller error and stream-close error wrapped with "websocket closed",
fire the closed latch, and poison the two frame locks by sending into
them.  A second invocation is a no-op. -/
def Conn.close (s : ConnState) (err : Option Err) (streamErr : Option Err) : ConnState :=
  if s.closed then s
  else
    { s with
      closed := true
      closeErr := some (wrapO ("websocket closed") (firstNonNil err streamErr))
      readFrameLock := true
      writeFrameLock := true }

/-- A sequence of `Conn.close` invocations, each with its caller error
and stream-close-result oracle. -/
def closeSeq (s : ConnState) : List (Option Err × Option Err) → ConnState
  | [] => s
  | (e, st) :: rest => closeSeq (Conn.close s e st) rest

/-- Model of `Conn.releaseLock`: drain the capacity-1 channel if a token
is present, else do nothing (`select` with `default`); the slot is free
afterwards in either case, and the operation never blocks. -/
def releaseLock (lock : Bool) : Bool := false

/-- The three cases of the `select` in `Conn.acquireLock`:
caller-context cancellation, the closed latch, or sending into the lock
channel. -/
inductive AcqChoice where
  | ctx
  | closed
  | lock
deriving DecidableEq

/-- Result of `Conn.acquireLock` for a given select choice; `invalid`
marks a choice whose case was not ready (a real execution never takes
it). -/
inductive AcqRes where
  | acquired
  | errRes (e : Err)
  | invalid
deriving DecidableEq

/-- Model of `Conn.acquireLock`: a `select` over context cancellation
(returns the context error), the closed latch (returns the terminal
error) and sending into the lock channel (acquires the slot). -/
def acquireLock (ctxDone : Bool) (s : ConnState) (lockFull : Bool) : AcqChoice → AcqRes
  | AcqChoice.ctx => if ctxDone then AcqRes.errRes Err.ctxCanceled else AcqRes.invalid
  | AcqChoice.closed => if s.closed then AcqRes.errRes (terminalOf s) else AcqRes.invalid
  | AcqChoice.lock => if lockFull then AcqRes.invalid else AcqRes.acquired

/-- Readiness of an `acquireLock` select choice: Go `select` only ever
takes a ready case. -/
def acqValid (ctxDone : Bool) (s : ConnState) (lockFull : Bool) : AcqChoice → Prop
  | AcqChoice.ctx => ctxDone = true
  | AcqChoice.closed => s.closed = true
  | AcqChoice.lock => lockFull = false

/-- A wire frame as emitted by `Conn.writeFrame` (header fields it sets
plus the payload length; the mask key is always zero in this core). -/
structure Frame where
  fin : Bool
  opcode : Nat
  masked : Bool
  payloadLen : Nat
deriving DecidableEq

/-- Oracle for the three fallible stream writes inside `Conn.writeFrame`
(header bytes, payload bytes, FIN flush) and for the stream-close result
should the failure path call `Conn.close`. -/
structure WfOracle where
  hdrErr : Option Err
  payloadErr : Option Err
  flushErr : Option Err
  streamCloseErr : Option Err
deriving DecidableEq

/-- The all-clean write oracle: every stream write succeeds. -/
def cleanW : WfOracle :=
  { hdrErr := none, payloadErr := none, flushErr := none, streamCloseErr := none }

/-- Result of a write-path operation. -/
inductive WFRes where
  | ok
  | err (e : Err)
  | blocked
deriving DecidableEq

/-- The first failing write inside the body of `Conn.writeFrame`: header
write, then payload write, then (only for FIN frames) the flush. -/
def firstWriteErr (fin : Bool) (wfo : WfOracle) : Option Err :=
  match wfo.hdrErr with
  | some e => some e
  | none =>
    match wfo.payloadErr with
    | some e => some e
    | none => if fin then wfo.flushErr else none

/-- Output of `Conn.writeFrame`: the connection state on return, the
call result, and the frames fully emitted to the stream. -/
structure WFOut where
  conn : ConnState
  res : WFRes
  frames : List Frame
deriving DecidableEq

/-- Model of `Conn.writeFrame`: acquire the write-frame slot (select
choice `acqCh`); arm the write deadline (when the caller context is
already cancelled, `armCtx` chooses the cancellation case of that
select); write header and payload bytes and, for FIN frames, flush.  On
a write failure the deferred handler releases the write-frame slot and
calls `Conn.close` with the write error (whose poison token is then
drained again by the outermost deferred release, so the slot ends
free).  Transient slot states inside the call are collapsed; on the
closed latch the timeout loop is gone, so the arm select can only
observe the latch. -/
def Conn.writeFrame (ctxDone : Bool) (s : ConnState) (acqCh : AcqChoice) (armCtx : Bool)
    (fin : Bool) (op : Nat) (plen : Nat) (wfo : WfOracle) : WFOut :=
  match acquireLock ctxDone s s.writeFrameLock acqCh with
  | AcqRes.errRes e => ⟨s, WFRes.err e, []⟩
  | AcqRes.invalid => ⟨s, WFRes.blocked, []⟩
  | AcqRes.acquired =>
    if s.closed then ⟨s, WFRes.err (terminalOf s), []⟩
    else if ctxDone && armCtx then ⟨s, WFRes.err Err.ctxCanceled, []⟩
    else
      match firstWriteErr fin wfo with
      | some e0 =>
        let werr := Err.wrapped ("failed to write to connection") e0
        ⟨{ Conn.close s (some werr) wfo.streamCloseErr with writeFrameLock := false },
          WFRes.err werr, []⟩
      | none => ⟨s, WFRes.ok, [⟨fin, op, s.client, plen⟩]⟩

/-- Control opcodes are close (0x8), ping (0x9) and pong (0xA); data
opcodes are below 0x8 (`opcode.controlOp` from the frame codec). -/
def controlOp (op : Nat) : Bool := decide (8 ≤ op)

/-- Output of `Conn.writeMessage`. -/
structure WMOut where
  conn : ConnState
  res : WFRes
  frames : List Frame
deriving DecidableEq

/-- Model of `Conn.writeMessage`: data opcodes first acquire the
write-message slot (and release it on return); control opcodes skip it.
Then a single FIN frame is written via `Conn.writeFrame`; its error is
wrapped with "failed to write frame". -/
def Conn.writeMessage (ctxDone : Bool) (s : ConnState) (op : Nat) (plen : Nat)
    (acqMsg acqFrame : AcqChoice) (armCtx : Bool) (wfo : WfOracle) : WMOut :=
  if controlOp op then
    let o := Conn.writeFrame ctxDone s acqFrame armCtx true op plen wfo
    match o.res with
    | WFRes.ok => ⟨o.conn, WFRes.ok, o.frames⟩
    | WFRes.err e => ⟨o.conn, WFRes.err (Err.wrapped ("failed to write frame") e), o.frames⟩
    | WFRes.blocked => ⟨o.conn, WFRes.blocked, o.frames⟩
  else
    match acquireLock ctxDone s s.writeMsgLock acqMsg with
    | AcqRes.errRes e => ⟨s, WFRes.err e, []⟩
    | AcqRes.invalid => ⟨s, WFRes.blocked, []⟩
    | AcqRes.acquired =>
      let s1 : ConnState := { s with writeMsgLock := true }
      let o := Conn.writeFrame ctxDone s1 acqFrame armCtx true op plen wfo
      match o.res with
      | WFRes.ok => ⟨{ o.conn with writeMsgLock := false }, WFRes.ok, o.frames⟩
      | WFRes.err e =>
        ⟨{ o.conn with writeMsgLock := false },
          WFRes.err (Err.wrapped ("failed to write frame") e), o.frames⟩
      | WFRes.blocked => ⟨o.conn, WFRes.blocked, o.frames⟩

/-- The caller-facing message writer handle (`messageWriter`): the
opcode of the next frame and the closed flag of the handle. -/
structure MessageWriter where
  opcode : Nat
  closed : Bool
deriving DecidableEq

/-- Result of `Conn.writer`. -/
inductive WriterRes where
  | ok (w : MessageWriter)
  | err (e : Err)
  | blocked
deriving DecidableEq

/-- Output of `Conn.writer`. -/
structure WriterOut where
  conn : ConnState
  res : WriterRes
deriving DecidableEq

/-- Model of `Conn.writer`: acquire the write-message slot and hand out
a fresh `messageWriter` holding it. -/
def Conn.writer (ctxDone : Bool) (s : ConnState) (typ : Nat) (acqCh : AcqChoice) : WriterOut :=
  match acquireLock ctxDone s s.writeMsgLock acqCh with
  | AcqRes.errRes e => ⟨s, WriterRes.err e⟩
  | AcqRes.invalid => ⟨s, WriterRes.blocked⟩
  | AcqRes.acquired => ⟨{ s with writeMsgLock := true }, WriterRes.ok ⟨typ, false⟩⟩

/-- Output of a `messageWriter` operation. -/
structure MWOut where
  conn : ConnState
  wtr : MessageWriter
  res : WFRes
  frames : List Frame
deriving DecidableEq

/-- Model of `messageWriter.write`: a closed handle is a usage error;
otherwise emit a non-FIN frame with the current opcode and, on success,
flip the opcode to continuation. -/
def mwWrite (ctxDone : Bool) (s : ConnState) (w : MessageWriter) (plen : Nat)
    (acqCh : AcqChoice) (armCtx : Bool) (wfo : WfOracle) : MWOut :=
  if w.closed then ⟨s, w, WFRes.err (Err.usage ("cannot use closed writer")), []⟩
  else
    let o := Conn.writeFrame ctxDone s acqCh armCtx false w.opcode plen wfo
    match o.res with
    | WFRes.ok => ⟨o.conn, { w with opcode := 0 }, WFRes.ok, o.frames⟩
    | WFRes.err e => ⟨o.conn, w, WFRes.err e, o.frames⟩
    | WFRes.blocked => ⟨o.conn, w, WFRes.blocked, o.frames⟩

/-- Model of `messageWriter.close`: a closed handle is a usage error;
otherwise mark the handle closed, emit an empty FIN frame with the
current opcode and, on success, release the write-message slot. -/
def mwClose (ctxDone : Bool) (s : ConnState) (w : MessageWriter)
    (acqCh : AcqChoice) (armCtx : Bool) (wfo : WfOracle) : MWOut :=
  if w.closed then ⟨s, w, WFRes.err (Err.usage ("cannot use closed writer")), []⟩
  else
    let w1 : MessageWriter := { w with closed := true }
    let o := Conn.writeFrame ctxDone s acqCh armCtx true w.opcode 0 wfo
    match o.res with
    | WFRes.ok => ⟨{ o.conn with writeMsgLock := false }, w1, WFRes.ok, o.frames⟩
    | WFRes.err e => ⟨o.conn, w1, WFRes.err e, o.frames⟩
    | WFRes.blocked => ⟨o.conn, w1, WFRes.blocked, o.frames⟩

/-- Output of a sequence of `messageWriter.write` calls. -/
structure RunOut where
  conn : ConnState
  wtr : MessageWriter
  frames : List Frame
deriving DecidableEq

/-- A sequence of `messageWriter.write` calls with the given payload
lengths, each taking the lock case of the acquire select with a clean
write oracle. -/
def runWrites (s : ConnState) (w : MessageWriter) : List Nat → RunOut
  | [] => ⟨s, w, []⟩
  | p :: ps =>
    let o := mwWrite false s w p AcqChoice.lock false cleanW
    let o2 := runWrites o.conn o.wtr ps
    ⟨o2.conn, o2.wtr, o.frames ++ o2.frames⟩

/-- The frame sequence the spec prescribes for a message writer: the
first frame carries the message opcode, later ones continuation, all
non-FIN. -/
def mkFrames (cl : Bool) (T : Nat) : List Nat → List Frame
  | [] => []
  | p :: ps => ⟨false, T, cl, p⟩ :: ps.map (fun q => Frame.mk false 0 cl q)

/-- Final opcode held by a message writer after a run of writes. -/
def lastOp (ps : List Nat) (T : Nat) : Nat :=
  if ps.isEmpty then T else 0

/-- A data-frame header as delivered by the reader pump over `readMsg`
(the fields `messageReader`/`Conn.reader` consult; the rsv bits and mask
key, already validated or constant in this core, are omitted). -/
structure Header where
  fin : Bool
  opcode : Nat
  masked : Bool
  payloadLength : Nat
deriving DecidableEq

/-- The caller-facing message reader handle (`messageReader`). -/
structure MsgReader where
  maskPos : Nat
  h : Option Header
  eofed : Bool
deriving DecidableEq

/-- Model of the user-initiated close path (`exportedClose`/`writeClose`
as invoked by `Conn.Close(code, reason)`): write a close frame (a
control frame, so `writeMessage` goes straight to `writeFrame` with a
fresh 5-second context), then run `Conn.close` with the `CloseError` as
caller error regardless of the write outcome.  The close payload is the
two status bytes plus the reason. -/
def Conn.exportedCloseModel (s : ConnState) (code : Nat) (reason : String)
    (acqCh : AcqChoice) (wfo : WfOracle) (streamErr : Option Err) : ConnState :=
  let o := Conn.writeFrame false s acqCh false true 8 (2 + reason.length) wfo
  Conn.close o.conn (some (Err.closeError code reason)) streamErr

/-- The cases of the post-acquire `select` in `Conn.reader`: closed
latch, caller-context cancellation, or receiving a header on `readMsg`. -/
inductive RdrChoice where
  | ctx
  | closed
  | msg
deriving DecidableEq

/-- Readiness of a `Conn.reader` select choice: `readMsg` can only
deliver when the pump is alive, i.e. before the closed latch. -/
def rdrValid (ctxDone : Bool) (s : ConnState) (nh : Option Header) : RdrChoice → Prop
  | RdrChoice.ctx => ctxDone = true
  | RdrChoice.closed => s.closed = true
  | RdrChoice.msg => nh.isSome = true ∧ s.closed = false

/-- Result of `Conn.reader`. -/
inductive ReaderRes where
  | ok (typ : Nat) (r : MsgReader)
  | err (e : Err)
  | blocked
deriving DecidableEq

/-- Output of `Conn.reader`. -/
structure ReaderOut where
  conn : ConnState
  res : ReaderRes
deriving DecidableEq

/-- Model of `Conn.reader`: acquire the read-message slot; then select
on the closed latch, the caller context, and the next data-frame header
from the pump.  A continuation header here means no message is in
progress, so the connection is closed with a protocol error (status
1002); otherwise a fresh `messageReader` for the delivered header is
returned.  Error paths keep the read-message slot, as the code does. -/
def Conn.reader (ctxDone : Bool) (s : ConnState) (acqCh : AcqChoice) (rch : RdrChoice)
    (nh : Option Header) (clA : AcqChoice) (clW : WfOracle) (clS : Option Err) : ReaderOut :=
  match acquireLock ctxDone s s.readMsgLock acqCh with
  | AcqRes.errRes e => ⟨s, ReaderRes.err e⟩
  | AcqRes.invalid => ⟨s, ReaderRes.blocked⟩
  | AcqRes.acquired =>
    let s1 : ConnState := { s with readMsgLock := true }
    match rch with
    | RdrChoice.closed =>
      if s1.closed then ⟨s1, ReaderRes.err (terminalOf s1)⟩ else ⟨s1, ReaderRes.blocked⟩
    | RdrChoice.ctx =>
      if ctxDone then ⟨s1, ReaderRes.err Err.ctxCanceled⟩ else ⟨s1, ReaderRes.blocked⟩
    | RdrChoice.msg =>
      match nh with
      | none => ⟨s1, ReaderRes.blocked⟩
      | some h =>
        if s1.closed then ⟨s1, ReaderRes.blocked⟩
        else if h.opcode = 0 then
          ⟨Conn.exportedCloseModel s1 1002 ("continuation frame not after data or text frame")
              clA clW clS,
            ReaderRes.err
              (Err.closeError 1002 ("continuation frame not after data or text frame"))⟩
        else ⟨s1, ReaderRes.ok h.opcode ⟨0, some h, false⟩⟩

/-- The byte-limited adapter handed out by `Conn.Reader`: the remaining
budget snapshotted from the message read limit. -/
structure LimitedReader where
  left : Int
deriving DecidableEq

/-- Output of `Conn.Reader`. -/
structure ReaderLOut where
  conn : ConnState
  res : ReaderRes
  lim : Option LimitedReader
deriving DecidableEq

/-- Model of the exported `Conn.Reader`: run `Conn.reader`; on success,
atomically load the current message read limit into a fresh
`limitedReader`; on error, wrap with "failed to get reader". -/
def Conn.Reader (ctxDone : Bool) (s : ConnState) (acqCh : AcqChoice) (rch : RdrChoice)
    (nh : Option Header) (clA : AcqChoice) (clW : WfOracle) (clS : Option Err) : ReaderLOut :=
  let o := Conn.reader ctxDone s acqCh rch nh clA clW clS
  match o.res with
  | ReaderRes.ok typ r => ⟨o.conn, ReaderRes.ok typ r, some ⟨o.conn.msgReadLimit⟩⟩
  | ReaderRes.err e => ⟨o.conn, ReaderRes.err (Err.wrapped ("failed to get reader") e), none⟩
  | ReaderRes.blocked => ⟨o.conn, ReaderRes.blocked, none⟩

/-- Model of `Conn.SetReadLimit`: an atomic store of the message read
limit. -/
def Conn.SetReadLimit (s : ConnState) (n : Int) : ConnState :=
  { s with msgReadLimit := n }

/-- Modelled from the spec: the `limitedReader` adapter itself is not
among the provided source files; per the spec it tracks the remaining
budget `left` and, when a single message exceeds it, closes the
connection with status 1008 (policy violation) and fails the read. -/
def limitedRead (s : ConnState) (lr : LimitedReader) (n : Nat) (streamErr : Option Err) :
    ConnState × LimitedReader × Option Err :=
  if lr.left < (n : Int) then
    (Conn.close s (some (Err.closeError 1008 ("read limit exceeded"))) streamErr, lr,
      some (Err.closeError 1008 ("read limit exceeded")))
  else (s, ⟨lr.left - (n : Int)⟩, none)

/-- Oracle for one `messageReader.read` call: the next header the pump
delivers when none is current, the `io.ReadFull` outcome (`ioErr` with
short count `ioN`), the read-frame-slot acquire choice, and the close
parameters of the close path for the protocol-error case and the read-failure
case. -/
structure ReadOracle where
  nextHdr : Option Header
  ioErr : Option Err
  ioN : Nat
  frAcq : AcqChoice
  clAcq : AcqChoice
  clW : WfOracle
  clStream : Option Err
  readStream : Option Err
deriving DecidableEq

/-- Result of `messageReader.read`: bytes delivered, end-of-stream
(`io.EOF`, a sentinel distinct from an error), an error with a byte
count, or a blocked (never-returning) call. -/
inductive ReadRes where
  | bytes (n : Nat)
  | eof (n : Nat)
  | err (n : Nat) (e : Err)
  | blocked
deriving DecidableEq

/-- Output of `messageReader.read`: connection state, reader handle,
result, and whether the call acknowledged the pump on `readMsgDone`. -/
structure ReadOut where
  conn : ConnState
  rdr : MsgReader
  res : ReadRes
  acked : Bool
deriving DecidableEq

/-- The part of `messageReader.read` after a current header is in hand:
clamp the buffer to the remaining payload, arm the read deadline,
read under the read-frame slot, update remaining length and mask
position, and on exhausting the frame acknowledge the pump, then either
EOF (FIN: release the read-message slot) or rearm for the next fragment
(clear the header, reset the mask position). -/
def mrReadWithHdr (ctxDone : Bool) (s : ConnState) (r : MsgReader) (h : Header) (plen : Nat)
    (ro : ReadOracle) : ReadOut :=
  let plen' := min plen h.payloadLength
  if s.closed then ⟨s, r, ReadRes.err 0 (terminalOf s), false⟩
  else
    match acquireLock ctxDone s s.readFrameLock ro.frAcq with
    | AcqRes.errRes e => ⟨s, r, ReadRes.err 0 e, false⟩
    | AcqRes.invalid => ⟨s, r, ReadRes.blocked, false⟩
    | AcqRes.acquired =>
      match ro.ioErr with
      | some e =>
        let n := min ro.ioN plen'
        let rem := h.payloadLength - n
        let mp := if h.masked then (r.maskPos + n) % 4 else r.maskPos
        let s2 := Conn.close s
          (some (Err.wrapped ("failed to read control frame payload") e)) ro.readStream
        ⟨s2, ⟨mp, some { h with payloadLength := rem }, r.eofed⟩,
          ReadRes.err n (terminalOf s2), false⟩
      | none =>
        let n := plen'
        let rem := h.payloadLength - n
        let mp := if h.masked then (r.maskPos + n) % 4 else r.maskPos
        if rem = 0 then
          if h.fin then
            ⟨{ s with readMsgLock := false },
              ⟨mp, some { h with payloadLength := 0 }, true⟩, ReadRes.eof n, true⟩
          else ⟨s, ⟨0, none, r.eofed⟩, ReadRes.bytes n, true⟩
        else ⟨s, ⟨mp, some { h with payloadLength := rem }, r.eofed⟩, ReadRes.bytes n, false⟩

/-- Model of `messageReader.read`: an EOFed handle is a usage error;
with no current header, wait for the next header from the pump, which
must be a continuation frame, else the connection is closed with a
protocol error (status 1002); then proceed on the current frame. -/
def mrRead (ctxDone : Bool) (s : ConnState) (r : MsgReader) (plen : Nat)
    (ro : ReadOracle) : ReadOut :=
  if r.eofed then ⟨s, r, ReadRes.err 0 (Err.usage ("cannot use EOFed reader")), false⟩
  else
    match r.h with
    | some h => mrReadWithHdr ctxDone s r h plen ro
    | none =>
      if s.closed then ⟨s, r, ReadRes.err 0 (terminalOf s), false⟩
      else
        match ro.nextHdr with
        | none => ⟨s, r, ReadRes.blocked, false⟩
        | some h =>
          if h.opcode = 0 then
            mrReadWithHdr ctxDone s ⟨r.maskPos, some h, r.eofed⟩ h plen ro
          else
            ⟨Conn.exportedCloseModel s 1002
                ("cannot read new data frame when previous frame is not finished")
                ro.clAcq ro.clW ro.clStream,
              r,
              ReadRes.err 0
                (Err.closeError 1002
                  ("cannot read new data frame when previous frame is not finished")),
              false⟩

/-- The outcomes of the final `select` in `Conn.ping`: caller-context
cancellation, the closed latch, or the matching pong wakeup. -/
inductive PingSel where
  | ctx
  | closed
  | pong
deriving DecidableEq

/-- Output of `Conn.ping`. -/
structure PingOut where
  conn : ConnState
  res : WFRes
deriving DecidableEq

/-- Model of `Conn.ping`: register the identifier in the active-pings
map, send a ping control frame (via `writeMessage`, which for a control
opcode goes straight to `writeFrame` and wraps errors with "failed to
write frame"), then wait on cancellation, the closed latch, or the pong
wakeup.  The deferred deregistration removes the identifier on every
returning path. -/
def Conn.ping (ctxDone : Bool) (s : ConnState) (id : String) (acqCh : AcqChoice)
    (armCtx : Bool) (wfo : WfOracle) (sel : PingSel) (pongReady : Bool) : PingOut :=
  let s1 : ConnState := { s with activePings := s.activePings.insert id }
  let o := Conn.writeFrame ctxDone s1 acqCh armCtx true 9 id.length wfo
  match o.res with
  | WFRes.blocked => ⟨o.conn, WFRes.blocked⟩
  | WFRes.err e =>
    ⟨{ o.conn with activePings := o.conn.activePings.filter (fun x => x != id) },
      WFRes.err (Err.wrapped ("failed to write frame") e)⟩
  | WFRes.ok =>
    match sel with
    | PingSel.ctx =>
      if ctxDone then
        ⟨{ o.conn with activePings := o.conn.activePings.filter (fun x => x != id) },
          WFRes.err Err.ctxCanceled⟩
      else ⟨o.conn, WFRes.blocked⟩
    | PingSel.closed =>
      if o.conn.closed then
        ⟨{ o.conn with activePings := o.conn.activePings.filter (fun x => x != id) },
          WFRes.err (terminalOf o.conn)⟩
      else ⟨o.conn, WFRes.blocked⟩
    | PingSel.pong =>
      if pongReady then
        ⟨{ o.conn with activePings := o.conn.activePings.filter (fun x => x != id) },
          WFRes.ok⟩
      else ⟨o.conn, WFRes.blocked⟩

/-- Ghost-annotated state of one message slot: whether the capacity-1
lock channel holds a token, and the list of callers currently holding
the slot under the ownership protocol (a reader holds the read-message
slot from its acquire in `Conn.reader` until it reaches end-of-message
or the connection closes). -/
structure SlotSt where
  lockFull : Bool
  holders : List Nat
deriving DecidableEq

/-- The initial slot state: channel empty, no holders. -/
def slotInit : SlotSt := ⟨false, []⟩

/-- The slot events the code performs on the read-message slot: a caller
acquires it (`Conn.reader`), the owning caller releases it
(`messageReader.read` on a FIN frame), or the reader pump releases it on
an empty FIN continuation frame (`readLoop`) without being a holder. -/
inductive SlotStep : SlotSt → SlotSt → Prop where
  | acquire (r : Nat) (s : SlotSt) : s.lockFull = false → SlotStep s ⟨true, r :: s.holders⟩
  | ownerRelease (r : Nat) (s : SlotSt) : r ∈ s.holders →
      SlotStep s ⟨releaseLock s.lockFull, s.holders.erase r⟩
  | pumpRelease (s : SlotSt) : SlotStep s ⟨releaseLock s.lockFull, s.holders⟩

/-- The slot events without the pump release: exactly the events the
code performs on the write-message slot (acquire in `Conn.writer` or
`writeMessage`, release by the holder in `messageWriter.close` or
the deferred release in `writeMessage`). -/
inductive SlotStepNP : SlotSt → SlotSt → Prop where
  | acquire (r : Nat) (s : SlotSt) : s.lockFull = false → SlotStepNP s ⟨true, r :: s.holders⟩
  | ownerRelease (r : Nat) (s : SlotSt) : r ∈ s.holders →
      SlotStepNP s ⟨releaseLock s.lockFull, s.holders.erase r⟩

/-- A write-path result that is an error equal to, or wrapping, the
terminal error `t`. -/
def WFRes.fatalTo (r : WFRes) (t : Err) : Prop :=
  match r with
  | WFRes.err e => e.unwrapsTo t = true
  | _ => False

/-- A `Conn.reader` result that is an error equal to, or wrapping, the
terminal error `t`. -/
def ReaderRes.fatalTo (r : ReaderRes) (t : Err) : Prop :=
  match r with
  | ReaderRes.err e => e.unwrapsTo t = true
  | _ => False

/-- A `Conn.writer` result that is an error equal to, or wrapping, the
terminal error `t`. -/
def WriterRes.fatalTo (r : WriterRes) (t : Err) : Prop :=
  match r with
  | WriterRes.err e => e.unwrapsTo t = true
  | _ => False

/-- The at-most-one-holder invariant of a message slot: never more than
one logical holder, and a free lock channel means no holder at all. -/
def SlotInv (u : SlotSt) : Prop :=
  u.holders.length ≤ 1 ∧ (u.lockFull = false → u.holders = [])

/-- Concrete open connection state used by witnesses. -/
def sOpenEx : ConnState :=
  ⟨false, false, none, false, false, false, false, 32768, []⟩

/-- A concrete terminal error (a peer close wrapped by the close
latch). -/
def tEx : Err := Err.wrapped ("websocket closed") (Err.closeError 1000 ("bye"))

/-- Concrete closed connection state (as after a peer-initiated close
with no reader or writer active): latch fired, frame slots poisoned,
message slots free. -/
def sClosedEx : ConnState :=
  ⟨false, true, some tEx, false, true, false, true, 32768, []⟩

/-- Concrete read oracle used by witnesses: clean I/O, lock-case
acquire choices. -/
def roEx : ReadOracle :=
  ⟨none, none, 0, AcqChoice.lock, AcqChoice.lock, cleanW, none, none⟩

/-- Concrete FIN binary-frame header used by witnesses. -/
def hdrFinEx : Header := ⟨true, 2, false, 3⟩

/-- Concrete non-FIN text-frame header used by witnesses. -/
def hdrTextEx : Header := ⟨false, 1, false, 2⟩

/-- Concrete empty FIN continuation header used by witnesses. -/
def hdrContEx : Header := ⟨true, 0, false, 0⟩

/-- Concrete read oracle whose pump delivers a non-continuation header
mid-message (used by witnesses). -/
def roMidEx : ReadOracle :=
  ⟨some hdrFinEx, none, 0, AcqChoice.lock, AcqChoice.lock, cleanW, none, none⟩

/-! Helper lemmas. -/

theorem unwrapsTo_self (t : Err) : t.unwrapsTo t = true := by
  cases t <;> simp [Err.unwrapsTo]

theorem unwrapsTo_wrapped (m : String) (e t : Err) (h : e.unwrapsTo t = true) :
    (Err.wrapped m e).unwrapsTo t = true := by
  rw [Err.unwrapsTo]
  split <;> simp [h]

theorem close_of_closed (s : ConnState) (e st : Option Err) (h : s.closed = true) :
    Conn.close s e st = s := by
  simp [Conn.close, h]

theorem closeSeq_of_closed (l : List (Option Err × Option Err)) (s : ConnState)
    (h : s.closed = true) : closeSeq s l = s := by
  induction l with
  | nil => rfl
  | cons p rest ih =>
    obtain ⟨e, st⟩ := p
    rw [closeSeq, close_of_closed s e st h]
    exact ih

theorem not_mem_filter_ne (l : List String) (id : String) :
    id ∉ l.filter (fun x => x != id) := by
  intro hmem
  rw [List.mem_filter] at hmem
  simp at hmem

theorem writeFrame_clean (s : ConnState) (armCtx fin : Bool) (op plen : Nat)
    (hc : s.closed = false) (hl : s.writeFrameLock = false) :
    Conn.writeFrame false s AcqChoice.lock armCtx fin op plen cleanW
      = ⟨s, WFRes.ok, [⟨fin, op, s.client, plen⟩]⟩ := by
  simp [Conn.writeFrame, acquireLock, hl, hc, firstWriteErr, cleanW]

theorem exportedCloseModel_clean (s : ConnState) (code : Nat) (reason : String)
    (st : Option Err) (hc : s.closed = false) (hl : s.writeFrameLock = false) :
    Conn.exportedCloseModel s code reason AcqChoice.lock cleanW st
      = { s with
            closed := true
            closeErr := some (Err.wrapped ("websocket closed") (Err.closeError code reason))
            readFrameLock := true
            writeFrameLock := true } := by
  rw [Conn.exportedCloseModel, writeFrame_clean s false true 8 _ hc hl]
  simp [Conn.close, hc, wrapO, firstNonNil]

theorem mwWrite_clean (s : ConnState) (w : MessageWriter) (p : Nat)
    (hc : s.closed = false) (hl : s.writeFrameLock = false) (hw : w.closed = false) :
    mwWrite false s w p AcqChoice.lock false cleanW
      = ⟨s, ⟨0, false⟩, WFRes.ok, [⟨false, w.opcode, s.client, p⟩]⟩ := by
  obtain ⟨op, wc⟩ := w
  simp only [MessageWriter.closed] at hw
  subst hw
  simp [mwWrite, Conn.writeFrame, acquireLock, hl, hc, firstWriteErr, cleanW]

theorem writeFrame_closed (s : ConnState) (t : Err) (acqF : AcqChoice) (armCtx fin : Bool)
    (op plen : Nat) (wfo : WfOracle) (hc : s.closed = true) (he : s.closeErr = some t)
    (hv : acqValid false s s.writeFrameLock acqF) :
    Conn.writeFrame false s acqF armCtx fin op plen wfo = ⟨s, WFRes.err t, []⟩ := by
  cases acqF with
  | ctx => simp [acqValid] at hv
  | closed => simp [Conn.writeFrame, acquireLock, hc, terminalOf, he]
  | lock =>
    have hl : s.writeFrameLock = false := hv
    simp [Conn.writeFrame, acquireLock, hl, hc, terminalOf, he]

theorem writeFrame_msgReadLimit (ctxD : Bool) (s : ConnState) (acqCh : AcqChoice)
    (armCtx fin : Bool) (op plen : Nat) (wfo : WfOracle) :
    (Conn.writeFrame ctxD s acqCh armCtx fin op plen wfo).conn.msgReadLimit
      = s.msgReadLimit := by
  rcases h : acquireLock ctxD s s.writeFrameLock acqCh with _ | e | _ <;>
    simp only [Conn.writeFrame, h]
  · split
    · rfl
    · split
      · rfl
      · rcases h2 : firstWriteErr fin wfo with _ | e0
        · simp [h2]
        · simp only [h2, Conn.close]
          split <;> rfl

theorem exportedCloseModel_msgReadLimit (s : ConnState) (code : Nat) (reason : String)
    (acqCh : AcqChoice) (wfo : WfOracle) (st : Option Err) :
    (Conn.exportedCloseModel s code reason acqCh wfo st).msgReadLimit = s.msgReadLimit := by
  rw [Conn.exportedCloseModel]
  have h1 := writeFrame_msgReadLimit false s acqCh false true 8 (2 + reason.length) wfo
  rw [Conn.close]
  split
  · exact h1
  · exact h1

theorem reader_msgReadLimit (ctxD : Bool) (s : ConnState) (acqCh : AcqChoice)
    (rch : RdrChoice) (nh : Option Header) (clA : AcqChoice) (clW2 : WfOracle)
    (clS : Option Err) :
    (Conn.reader ctxD s acqCh rch nh clA clW2 clS).conn.msgReadLimit = s.msgReadLimit := by
  rcases h : acquireLock ctxD s s.readMsgLock acqCh with _ | e | _ <;>
    simp only [Conn.reader, h]
  · cases rch with
    | closed => cases hcl : s.closed <;> simp [hcl]
    | ctx => cases hcd : ctxD <;> simp [hcd]
    | msg =>
      cases nh with
      | none => rfl
      | some hd =>
        cases hcl : s.closed
        · by_cases hop : hd.opcode = 0 <;>
            simp [hcl, hop, exportedCloseModel_msgReadLimit]
        · simp [hcl]

theorem mkFrames_zero (cl : Bool) (ps : List Nat) :
    mkFrames cl 0 ps = ps.map (fun q => Frame.mk false 0 cl q) := by
  cases ps <;> simp [mkFrames]

theorem runWrites_clean (s : ConnState) (hc : s.closed = false)
    (hl : s.writeFrameLock = false) :
    ∀ (ps : List Nat) (T : Nat),
      runWrites s ⟨T, false⟩ ps = ⟨s, ⟨lastOp ps T, false⟩, mkFrames s.client T ps⟩ := by
  intro ps
  induction ps with
  | nil => intro T; simp [runWrites, lastOp, mkFrames]
  | cons p ps ih =>
    intro T
    simp only [runWrites]
    rw [mwWrite_clean s ⟨T, false⟩ p hc hl rfl]
    dsimp only
    rw [ih 0, mkFrames_zero]
    simp [lastOp, mkFrames]

/-! Claim theorems. -/

/-- C1: the terminal error of a connection is written exactly once: for
every sequence of `close` invocations, only the first performs the
teardown; it records the first non-nil of the caller error and the
stream-close error wrapped with "websocket closed", and every operation
that subsequently observes the closed latch (via the closed case of `acquireLock`) observes that same single terminal error. -/
theorem terminal_error_write_once (s : ConnState) (hc : s.closed = false)
    (e1 st1 : Option Err) (rest : List (Option Err × Option Err)) :
    (closeSeq s ((e1, st1) :: rest)).closed = true ∧
    (closeSeq s ((e1, st1) :: rest)).closeErr
      = some (wrapO ("websocket closed") (firstNonNil e1 st1)) ∧
    (∀ ctxD lockB,
      acquireLock ctxD (closeSeq s ((e1, st1) :: rest)) lockB AcqChoice.closed
        = AcqRes.errRes (wrapO ("websocket closed") (firstNonNil e1 st1))) := by
  have h1 : (Conn.close s e1 st1).closed = true := by simp [Conn.close, hc]
  have h2 : (Conn.close s e1 st1).closeErr
      = some (wrapO ("websocket closed") (firstNonNil e1 st1)) := by
    simp [Conn.close, hc]
  have h3 : closeSeq s ((e1, st1) :: rest) = Conn.close s e1 st1 := by
    rw [closeSeq]
    exact closeSeq_of_closed rest _ h1
  rw [h3]
  refine ⟨h1, h2, ?_⟩
  intro ctxD lockB
  simp [acquireLock, h1, terminalOf, h2]

/-- Witness for C1 at a concrete open state and a concrete sequence of
three close invocations: the recorded terminal error is the error of the first caller, wrapped. -/
theorem terminal_error_write_once_witness :
    (closeSeq sOpenEx
        [(some (Err.ioError ("peer reset")), none),
          (none, some (Err.ioError ("stream gone"))),
          (some Err.ctxCanceled, none)]).closeErr
      = some (Err.wrapped ("websocket closed") (Err.ioError ("peer reset"))) :=
  (terminal_error_write_once sOpenEx rfl (some (Err.ioError ("peer reset"))) none
      [(none, some (Err.ioError ("stream gone"))), (some Err.ctxCanceled, none)]).2.1

/-- C9: slot release is idempotent: releasing twice leaves the slot as
releasing once, and releasing an already-free slot is a no-op (the
operation is a nonblocking drain), which is what lets closure forcibly
unblock acquirers by writing a token into the slot on their behalf. -/
theorem release_lock_idempotent (b : Bool) :
    releaseLock (releaseLock b) = releaseLock b ∧
    releaseLock false = false ∧ releaseLock true = false :=
  ⟨rfl, rfl, rfl⟩

/-- C3 (counterexample): an interleaving of the read-path slot events
reaches a state where two callers hold the read-message slot
simultaneously.  Concretely: caller 1 acquires the slot (its `Reader`
call) and consumes a non-final fragment to the boundary; the pump then
receives an empty FIN continuation frame and releases the read-message
slot even though caller 1 still holds it; the `Reader` call of caller 2 then
acquires the freed slot, so both hold it. -/
theorem read_slot_double_hold :
    Relation.ReflTransGen SlotStep slotInit ⟨true, [2, 1]⟩ ∧
    (SlotSt.mk true [2, 1]).holders.length = 2 := by
  constructor
  · have h1 : SlotStep slotInit ⟨true, [1]⟩ := SlotStep.acquire 1 slotInit rfl
    have h2 : SlotStep ⟨true, [1]⟩ ⟨false, [1]⟩ := SlotStep.pumpRelease ⟨true, [1]⟩
    have h3 : SlotStep ⟨false, [1]⟩ ⟨true, [2, 1]⟩ :=
      SlotStep.acquire 2 ⟨false, [1]⟩ rfl
    exact Relation.ReflTransGen.head h1 (Relation.ReflTransGen.head h2
      (Relation.ReflTransGen.single h3))
  · rfl

/-- C3 (amended): along every interleaving of slot events that contains
no pump release — in particular every interleaving of events on the
write-message slot, whose only events are caller acquire and owner
release — at most one caller holds the slot at any reachable state.
The empty-FIN-continuation pump release of the read-message slot is
exactly what breaks this for the read slot. -/
theorem slot_single_holder_no_pump_release (s : SlotSt)
    (h : Relation.ReflTransGen SlotStepNP slotInit s) : s.holders.length ≤ 1 := by
  have hstep : ∀ a c : SlotSt, SlotStepNP a c → SlotInv a → SlotInv c := by
    intro a c hs ha
    cases hs with
    | acquire r _ hfree =>
      have hnil : a.holders = [] := ha.2 hfree
      refine ⟨by simp [SlotInv, hnil], ?_⟩
      intro hfalse
      simp at hfalse
    | ownerRelease r _ hmem =>
      have hb : a.holders = [r] := by
        cases hh : a.holders with
        | nil => rw [hh] at hmem; simp at hmem
        | cons x rest =>
          cases hr : rest with
          | nil =>
            rw [hh, hr] at hmem
            have har : r = x := by simpa using hmem
            rw [har]
          | cons x2 rest2 =>
            exfalso
            have hlen := ha.1
            rw [hh, hr] at hlen
            simp at hlen
      refine ⟨?_, ?_⟩ <;> simp [SlotInv, hb, List.erase_cons_head]
  have inv : SlotInv s := by
    induction h with
    | refl => exact ⟨by simp [slotInit], fun _ => rfl⟩
    | tail hab hbc ih => exact hstep _ _ hbc ih
  exact inv.1

/-- Witness for the amended C3 theorem at a concrete reachable state with
one holder. -/
theorem slot_single_holder_no_pump_release_witness :
    (SlotSt.mk true [5]).holders.length ≤ 1 :=
  slot_single_holder_no_pump_release ⟨true, [5]⟩
    (Relation.ReflTransGen.single (SlotStepNP.acquire 5 slotInit rfl))

/-- C4: every failing frame write (header write, payload write, or FIN
flush) is connection-fatal: `writeFrame` releases the write-frame slot
and initiates close with that write error as terminal cause (wrapped
with "failed to write to connection" and then "websocket closed"), no
frame is emitted, and any caller that subsequently observes the closed
latch receives that same wrapped terminal error. -/
theorem write_failure_fatal (s : ConnState) (e0 : Err) (fin : Bool) (op plen : Nat)
    (wfo : WfOracle) (hc : s.closed = false) (hl : s.writeFrameLock = false)
    (hfail : wfo.hdrErr = some e0 ∨ (wfo.hdrErr = none ∧ wfo.payloadErr = some e0) ∨
      (wfo.hdrErr = none ∧ wfo.payloadErr = none ∧ fin = true ∧ wfo.flushErr = some e0)) :
    (Conn.writeFrame false s AcqChoice.lock false fin op plen wfo).res
        = WFRes.err (Err.wrapped ("failed to write to connection") e0) ∧
    (Conn.writeFrame false s AcqChoice.lock false fin op plen wfo).conn.closed = true ∧
    (Conn.writeFrame false s AcqChoice.lock false fin op plen wfo).conn.closeErr
        = some (Err.wrapped ("websocket closed")
            (Err.wrapped ("failed to write to connection") e0)) ∧
    (Conn.writeFrame false s AcqChoice.lock false fin op plen wfo).conn.writeFrameLock
        = false ∧
    (Conn.writeFrame false s AcqChoice.lock false fin op plen wfo).frames = [] ∧
    (∀ ctxD lockB,
      acquireLock ctxD (Conn.writeFrame false s AcqChoice.lock false fin op plen wfo).conn
          lockB AcqChoice.closed
        = AcqRes.errRes (Err.wrapped ("websocket closed")
            (Err.wrapped ("failed to write to connection") e0))) := by
  have hfw : firstWriteErr fin wfo = some e0 := by
    rcases hfail with h1 | ⟨h1, h2⟩ | ⟨h1, h2, h3, h4⟩
    · simp [firstWriteErr, h1]
    · simp [firstWriteErr, h1, h2]
    · simp [firstWriteErr, h1, h2, h3, h4]
  simp [Conn.writeFrame, acquireLock, hl, hc, hfw, Conn.close, terminalOf, wrapO, firstNonNil]

/-- Witness for C4: a concrete header-write failure on an open
connection records the wrapped terminal cause. -/
theorem write_failure_fatal_witness :
    (Conn.writeFrame false sOpenEx AcqChoice.lock false true 1 5
        ⟨some (Err.ioError ("broken pipe")), none, none, none⟩).conn.closeErr
      = some (Err.wrapped ("websocket closed")
          (Err.wrapped ("failed to write to connection") (Err.ioError ("broken pipe")))) :=
  (write_failure_fatal sOpenEx (Err.ioError ("broken pipe")) true 1 5
      ⟨some (Err.ioError ("broken pipe")), none, none, none⟩ rfl rfl (Or.inl rfl)).2.2.1

/-- C5: a `messageReader.read` call that consumes the last remaining
payload byte of the current frame acknowledges the pump on
`readMsgDone`; then, if the frame has FIN set, it marks the handle
EOFed, releases the read-message slot and returns the end-of-stream
sentinel (a result distinct from an error); otherwise it clears the
current header and resets the mask position so the next read waits for
the next fragment. -/
theorem read_last_byte_semantics (s : ConnState) (r : MsgReader) (h : Header) (plen : Nat)
    (ro : ReadOracle) (hc : s.closed = false) (hfl : s.readFrameLock = false)
    (he : r.eofed = false) (hh : r.h = some h) (hle : h.payloadLength ≤ plen)
    (hio : ro.ioErr = none) (hacq : ro.frAcq = AcqChoice.lock) :
    (mrRead false s r plen ro).acked = true ∧
    (h.fin = true →
      (mrRead false s r plen ro).res = ReadRes.eof h.payloadLength ∧
      (mrRead false s r plen ro).rdr.eofed = true ∧
      (mrRead false s r plen ro).conn.readMsgLock = false ∧
      ∀ n e, (mrRead false s r plen ro).res ≠ ReadRes.err n e) ∧
    (h.fin = false →
      (mrRead false s r plen ro).res = ReadRes.bytes h.payloadLength ∧
      (mrRead false s r plen ro).rdr.h = none ∧
      (mrRead false s r plen ro).rdr.maskPos = 0) := by
  have hmin : min plen h.payloadLength = h.payloadLength := min_eq_right hle
  have hred : mrRead false s r plen ro = mrReadWithHdr false s r h plen ro := by
    simp [mrRead, he, hh]
  refine ⟨?_, ?_, ?_⟩
  · rw [hred]
    cases hf : h.fin <;>
      simp [mrReadWithHdr, hc, hfl, hacq, acquireLock, hio, hmin, hf]
  · intro hf
    rw [hred]
    simp [mrReadWithHdr, hc, hfl, hacq, acquireLock, hio, hmin, hf]
  · intro hf
    rw [hred]
    simp [mrReadWithHdr, hc, hfl, hacq, acquireLock, hio, hmin, hf]

/-- Witness for C5 on a concrete final frame of three bytes: the read
acknowledges the pump and returns end-of-stream. -/
theorem read_last_byte_semantics_witness :
    (mrRead false sOpenEx ⟨0, some hdrFinEx, false⟩ 10 roEx).res = ReadRes.eof 3 ∧
    (mrRead false sOpenEx ⟨0, some hdrFinEx, false⟩ 10 roEx).acked = true :=
  ⟨((read_last_byte_semantics sOpenEx ⟨0, some hdrFinEx, false⟩ hdrFinEx 10 roEx
      rfl rfl rfl rfl (by decide) rfl rfl).2.1 rfl).1,
    (read_last_byte_semantics sOpenEx ⟨0, some hdrFinEx, false⟩ hdrFinEx 10 roEx
      rfl rfl rfl rfl (by decide) rfl rfl).1⟩

/-- C6: continuation discipline on the read path.  If the first data
frame delivered to a new `Conn.reader` call is a continuation frame,
the connection is closed with a protocol-error status (1002) and the
call returns that error; and if a header delivered to an in-progress
`messageReader` (no current header after consuming a non-final
fragment) is not a continuation frame, the connection is likewise
closed with status 1002 and the read returns that error.  When the
close frame itself writes cleanly, the terminal cause is that
protocol-error `CloseError` wrapped with "websocket closed". -/
theorem continuation_protocol_error (s : ConnState)
    (hc : s.closed = false) (hrm : s.readMsgLock = false)
    (hwf : s.writeFrameLock = false) :
    (∀ h : Header, h.opcode = 0 →
      (Conn.reader false s AcqChoice.lock RdrChoice.msg (some h) AcqChoice.lock
          cleanW none).res
        = ReaderRes.err
            (Err.closeError 1002 ("continuation frame not after data or text frame")) ∧
      (Conn.reader false s AcqChoice.lock RdrChoice.msg (some h) AcqChoice.lock
          cleanW none).conn.closed = true ∧
      (Conn.reader false s AcqChoice.lock RdrChoice.msg (some h) AcqChoice.lock
          cleanW none).conn.closeErr
        = some (Err.wrapped ("websocket closed")
            (Err.closeError 1002 ("continuation frame not after data or text frame")))) ∧
    (∀ (r : MsgReader) (h : Header) (plen : Nat) (ro : ReadOracle),
      r.eofed = false → r.h = none → ro.nextHdr = some h → h.opcode ≠ 0 →
      ro.clAcq = AcqChoice.lock → ro.clW = cleanW →
      (mrRead false s r plen ro).res
        = ReadRes.err 0
            (Err.closeError 1002
              ("cannot read new data frame when previous frame is not finished")) ∧
      (mrRead false s r plen ro).conn.closed = true ∧
      (mrRead false s r plen ro).conn.closeErr
        = some (Err.wrapped ("websocket closed")
            (Err.closeError 1002
              ("cannot read new data frame when previous frame is not finished")))) := by
  constructor
  · intro h hop
    have h1 : Conn.reader false s AcqChoice.lock RdrChoice.msg (some h) AcqChoice.lock
        cleanW none
        = ⟨Conn.exportedCloseModel { s with readMsgLock := true } 1002
              ("continuation frame not after data or text frame") AcqChoice.lock cleanW none,
            ReaderRes.err
              (Err.closeError 1002 ("continuation frame not after data or text frame"))⟩ := by
      simp [Conn.reader, acquireLock, hrm, hc, hop]
    rw [h1, exportedCloseModel_clean { s with readMsgLock := true } 1002
      ("continuation frame not after data or text frame") none hc hwf]
    simp
  · intro r h plen ro her hrh hnh hop hcl hclw
    have h2 : mrRead false s r plen ro
        = ⟨Conn.exportedCloseModel s 1002
              ("cannot read new data frame when previous frame is not finished")
              ro.clAcq ro.clW ro.clStream,
            r,
            ReadRes.err 0
              (Err.closeError 1002
                ("cannot read new data frame when previous frame is not finished")),
            false⟩ := by
      simp [mrRead, her, hrh, hc, hnh, hop]
    rw [h2, hcl, hclw, exportedCloseModel_clean s 1002
      ("cannot read new data frame when previous frame is not finished") ro.clStream hc hwf]
    simp

/-- Witness for C6: a continuation first header, and a binary header
arriving mid-message, both close the connection with status 1002. -/
theorem continuation_protocol_error_witness :
    (Conn.reader false sOpenEx AcqChoice.lock RdrChoice.msg (some hdrContEx) AcqChoice.lock
        cleanW none).conn.closeErr
      = some (Err.wrapped ("websocket closed")
          (Err.closeError 1002 ("continuation frame not after data or text frame"))) ∧
    (mrRead false sOpenEx ⟨0, none, false⟩ 4 roMidEx).res
      = ReadRes.err 0
          (Err.closeError 1002
            ("cannot read new data frame when previous frame is not finished")) :=
  ⟨((continuation_protocol_error sOpenEx rfl rfl rfl).1 hdrContEx rfl).2.2,
    ((continuation_protocol_error sOpenEx rfl rfl rfl).2 ⟨0, none, false⟩ hdrFinEx 4 roMidEx
      rfl rfl rfl (by decide) rfl rfl).1⟩

/-- C7: the message writer protocol.  A run of successful writes emits
exactly the frame sequence of the spec — the first frame non-FIN with the
opcode of the message, every later frame non-FIN continuation; `close` emits
a final empty FIN frame with the current opcode and releases the
write-message slot; and any write or close on an already-closed handle
returns a usage error and emits no frame. -/
theorem message_writer_protocol (s : ConnState)
    (hc : s.closed = false) (hl : s.writeFrameLock = false) :
    (∀ (T : Nat) (ps : List Nat),
      (runWrites s ⟨T, false⟩ ps).frames = mkFrames s.client T ps) ∧
    (∀ w : MessageWriter, w.closed = false →
      mwClose false s w AcqChoice.lock false cleanW
        = ⟨{ s with writeMsgLock := false }, ⟨w.opcode, true⟩, WFRes.ok,
            [⟨true, w.opcode, s.client, 0⟩]⟩) ∧
    (∀ (w : MessageWriter) (ctxD : Bool) (plen : Nat) (acqCh : AcqChoice) (armCtx : Bool)
        (wfo : WfOracle), w.closed = true →
      mwWrite ctxD s w plen acqCh armCtx wfo
        = ⟨s, w, WFRes.err (Err.usage ("cannot use closed writer")), []⟩) ∧
    (∀ (w : MessageWriter) (ctxD : Bool) (acqCh : AcqChoice) (armCtx : Bool)
        (wfo : WfOracle), w.closed = true →
      mwClose ctxD s w acqCh armCtx wfo
        = ⟨s, w, WFRes.err (Err.usage ("cannot use closed writer")), []⟩) := by
  refine ⟨?_, ?_, ?_, ?_⟩
  · intro T ps
    rw [runWrites_clean s hc hl ps T]
  · intro w hw
    obtain ⟨op, wc⟩ := w
    simp only [MessageWriter.closed] at hw
    subst hw
    simp [mwClose, Conn.writeFrame, acquireLock, hl, hc, firstWriteErr, cleanW]
  · intro w ctxD plen acqCh armCtx wfo hw
    simp [mwWrite, hw]
  · intro w ctxD acqCh armCtx wfo hw
    simp [mwClose, hw]

/-- Witness for C7: a concrete two-write text message on an open
connection yields a text frame then a continuation frame, and close
emits the empty FIN frame and frees the write-message slot. -/
theorem message_writer_protocol_witness :
    (runWrites sOpenEx ⟨1, false⟩ [2, 3]).frames
      = [⟨false, 1, false, 2⟩, ⟨false, 0, false, 3⟩] ∧
    mwClose false sOpenEx ⟨0, false⟩ AcqChoice.lock false cleanW
      = ⟨{ sOpenEx with writeMsgLock := false }, ⟨0, true⟩, WFRes.ok,
          [⟨true, 0, false, 0⟩]⟩ :=
  ⟨(message_writer_protocol sOpenEx rfl rfl).1 1 [2, 3],
    (message_writer_protocol sOpenEx rfl rfl).2.1 ⟨0, false⟩ rfl⟩

/-- C8: every returning `ping` call removes its identifier from the
active-pings map, whatever the outcome (send failure, caller-scope
cancellation, closed latch, or matching pong); in particular a ping
whose scope is cancelled before any pong arrives returns the
cancellation error and leaves no entry for its identifier. -/
theorem ping_always_deregisters (ctxD : Bool) (s : ConnState) (id : String)
    (acqCh : AcqChoice) (armCtx : Bool) (wfo : WfOracle) (sel : PingSel) (pr : Bool) :
    ((Conn.ping ctxD s id acqCh armCtx wfo sel pr).res ≠ WFRes.blocked →
      id ∉ (Conn.ping ctxD s id acqCh armCtx wfo sel pr).conn.activePings) ∧
    (ctxD = true → s.closed = false → s.writeFrameLock = false →
      acqCh = AcqChoice.lock → armCtx = false → wfo = cleanW → sel = PingSel.ctx →
      (Conn.ping ctxD s id acqCh armCtx wfo sel pr).res = WFRes.err Err.ctxCanceled ∧
      id ∉ (Conn.ping ctxD s id acqCh armCtx wfo sel pr).conn.activePings) := by
  constructor
  · intro hnb
    rcases ho : (Conn.writeFrame ctxD { s with activePings := s.activePings.insert id }
        acqCh armCtx true 9 id.length wfo).res with _ | e0 | _
    · cases sel with
      | ctx =>
        cases hcd : ctxD
        · subst hcd
          exact absurd (by simp [Conn.ping, ho]) hnb
        · subst hcd
          simp only [Conn.ping, ho, if_true]
          exact not_mem_filter_ne _ _
      | closed =>
        cases hcl : (Conn.writeFrame ctxD { s with activePings := s.activePings.insert id }
            acqCh armCtx true 9 id.length wfo).conn.closed
        · exact absurd (by simp [Conn.ping, ho, hcl]) hnb
        · simp only [Conn.ping, ho, hcl, if_true]
          exact not_mem_filter_ne _ _
      | pong =>
        cases hpr : pr
        · subst hpr
          exact absurd (by simp [Conn.ping, ho]) hnb
        · subst hpr
          simp only [Conn.ping, ho, if_true]
          exact not_mem_filter_ne _ _
    · simp only [Conn.ping, ho]
      exact not_mem_filter_ne _ _
    · exact absurd (by simp [Conn.ping, ho]) hnb
  · intro hcd hc hl hacq harm hwfo hsel
    subst hcd; subst hacq; subst harm; subst hwfo; subst hsel
    constructor
    · simp [Conn.ping, Conn.writeFrame, acquireLock, hl, hc, firstWriteErr, cleanW]
    · simp only [Conn.ping, Conn.writeFrame, acquireLock, hl, hc, firstWriteErr, cleanW]
      simp

/-- Witness for C8: a concrete cancelled-scope ping on an open
connection returns the cancellation error and leaves no entry. -/
theorem ping_always_deregisters_witness :
    (Conn.ping true sOpenEx ("7") AcqChoice.lock false cleanW PingSel.ctx false).res
        = WFRes.err Err.ctxCanceled ∧
    ("7") ∉ (Conn.ping true sOpenEx ("7") AcqChoice.lock false cleanW
        PingSel.ctx false).conn.activePings :=
  (ping_always_deregisters true sOpenEx ("7") AcqChoice.lock false cleanW
      PingSel.ctx false).2 rfl rfl rfl rfl rfl rfl rfl

/-- C2 (counterexample): the claim that after the closed latch fires
every subsequent call returns the terminal error fails for `Writer`:
close poisons only the frame slots, so on a closed connection whose
write-message slot is free the acquire select has both the closed-latch
case and the lock case ready, and an execution that takes the lock case
makes `writer` return a fresh handle with no error. -/
theorem closed_writer_acquire_succeeds :
    sClosedEx.closed = true ∧
    acqValid false sClosedEx sClosedEx.writeMsgLock AcqChoice.lock ∧
    (Conn.writer false sClosedEx 1 AcqChoice.lock).res = WriterRes.ok ⟨1, false⟩ :=
  ⟨rfl, rfl, rfl⟩

/-- C2 (amended): after the closed latch has fired with terminal error
`t` and the caller scope is not cancelled, every valid execution of
`reader` (hence `Reader`/`Read`), `writeMessage` on a data opcode
(hence `Write`), `ping` (hence `Ping`), and `write` on an open message
writer returns immediately with an error that is, or wraps, `t`; a
`writer` call either does the same or — when the select takes the free
write-message slot — returns a writer handle, every write through which
returns an error wrapping `t`. -/
theorem closed_conn_calls_fail (s : ConnState) (t : Err)
    (hc : s.closed = true) (he : s.closeErr = some t) :
    (∀ (acqCh : AcqChoice) (rch : RdrChoice) (nh : Option Header) (clA : AcqChoice)
        (clW2 : WfOracle) (clS : Option Err),
      acqValid false s s.readMsgLock acqCh → rdrValid false s nh rch →
      ReaderRes.fatalTo (Conn.reader false s acqCh rch nh clA clW2 clS).res t) ∧
    (∀ (op plen : Nat) (acqMsg acqFrame : AcqChoice) (armCtx : Bool) (wfo : WfOracle),
      controlOp op = false →
      acqValid false s s.writeMsgLock acqMsg →
      acqValid false s s.writeFrameLock acqFrame →
      WFRes.fatalTo (Conn.writeMessage false s op plen acqMsg acqFrame armCtx wfo).res t) ∧
    (∀ (id : String) (acqFrame : AcqChoice) (armCtx : Bool) (wfo : WfOracle)
        (sel : PingSel) (pr : Bool),
      acqValid false s s.writeFrameLock acqFrame →
      WFRes.fatalTo (Conn.ping false s id acqFrame armCtx wfo sel pr).res t) ∧
    (∀ (w : MessageWriter) (plen : Nat) (acqCh : AcqChoice) (armCtx : Bool)
        (wfo : WfOracle),
      w.closed = false → acqValid false s s.writeFrameLock acqCh →
      WFRes.fatalTo (mwWrite false s w plen acqCh armCtx wfo).res t) ∧
    (∀ (typ : Nat) (acqCh : AcqChoice),
      acqValid false s s.writeMsgLock acqCh →
      WriterRes.fatalTo (Conn.writer false s typ acqCh).res t ∨
      (Conn.writer false s typ acqCh).res = WriterRes.ok ⟨typ, false⟩) := by
  refine ⟨?_, ?_, ?_, ?_, ?_⟩
  · intro acqCh rch nh clA clW2 clS hv1 hv2
    cases acqCh with
    | ctx => simp [acqValid] at hv1
    | closed =>
      simp [Conn.reader, acquireLock, hc, terminalOf, he, ReaderRes.fatalTo, unwrapsTo_self]
    | lock =>
      have hl : s.readMsgLock = false := hv1
      cases rch with
      | closed =>
        simp [Conn.reader, acquireLock, hl, hc, terminalOf, he, ReaderRes.fatalTo,
          unwrapsTo_self]
      | ctx => simp [rdrValid] at hv2
      | msg => exact absurd hv2.2 (by simp [hc])
  · intro op plen acqMsg acqFrame armCtx wfo hctl hv1 hv2
    cases acqMsg with
    | ctx => simp [acqValid] at hv1
    | closed =>
      simp [Conn.writeMessage, hctl, acquireLock, hc, terminalOf, he, WFRes.fatalTo,
        unwrapsTo_self]
    | lock =>
      have hl : s.writeMsgLock = false := hv1
      have hwf := writeFrame_closed { s with writeMsgLock := true } t acqFrame armCtx
        true op plen wfo hc he hv2
      simp [Conn.writeMessage, hctl, acquireLock, hl, hwf, WFRes.fatalTo,
        unwrapsTo_wrapped, unwrapsTo_self]
  · intro id acqFrame armCtx wfo sel pr hv
    have hwf := writeFrame_closed { s with activePings := s.activePings.insert id } t
      acqFrame armCtx true 9 id.length wfo hc he hv
    simp [Conn.ping, hwf, WFRes.fatalTo, unwrapsTo_wrapped, unwrapsTo_self]
  · intro w plen acqCh armCtx wfo hw hv
    have hwf := writeFrame_closed s t acqCh armCtx false w.opcode plen wfo hc he hv
    simp [mwWrite, hw, hwf, WFRes.fatalTo, unwrapsTo_self]
  · intro typ acqCh hv
    cases acqCh with
    | ctx => simp [acqValid] at hv
    | closed =>
      left
      simp [Conn.writer, acquireLock, hc, terminalOf, he, WriterRes.fatalTo, unwrapsTo_self]
    | lock =>
      right
      have hl : s.writeMsgLock = false := hv
      simp [Conn.writer, acquireLock, hl]

/-- Witness for the amended C2 theorem at the concrete closed state: a
reader call through the closed-latch select case and a Write through
the free message slot both fail with errors wrapping the terminal
error. -/
theorem closed_conn_calls_fail_witness :
    ReaderRes.fatalTo (Conn.reader false sClosedEx AcqChoice.closed RdrChoice.closed none
        AcqChoice.lock cleanW none).res tEx ∧
    WFRes.fatalTo (Conn.writeMessage false sClosedEx 1 3 AcqChoice.lock AcqChoice.closed
        false cleanW).res tEx :=
  ⟨(closed_conn_calls_fail sClosedEx tEx rfl rfl).1 AcqChoice.closed RdrChoice.closed none
      AcqChoice.lock cleanW none rfl rfl,
    (closed_conn_calls_fail sClosedEx tEx rfl rfl).2.1 1 3 AcqChoice.lock AcqChoice.closed
      false cleanW rfl rfl rfl⟩

/-- C10: the message-read limit is snapshotted per reader: every
limited reader returned by `Reader` carries the limit the connection
held when `Reader` ran, `SetReadLimit` only changes the connection
field (so only readers created afterwards see the new value), and a
budget check of a limited reader depends only on its own snapshotted
`left`, not on the current limit of the connection. -/
theorem read_limit_snapshot :
    (∀ (ctxD : Bool) (s : ConnState) (acqCh : AcqChoice) (rch : RdrChoice)
        (nh : Option Header) (clA : AcqChoice) (clW2 : WfOracle) (clS : Option Err),
      (Conn.Reader ctxD s acqCh rch nh clA clW2 clS).lim = none ∨
      (Conn.Reader ctxD s acqCh rch nh clA clW2 clS).lim = some ⟨s.msgReadLimit⟩) ∧
    (∀ (s : ConnState) (m : Int), (Conn.SetReadLimit s m).msgReadLimit = m) ∧
    (∀ (s : ConnState) (m : Int) (lr : LimitedReader) (k : Nat) (st : Option Err),
      (limitedRead (Conn.SetReadLimit s m) lr k st).2.2 = none ↔ (k : Int) ≤ lr.left) := by
  refine ⟨?_, ?_, ?_⟩
  · intro ctxD s acqCh rch nh clA clW2 clS
    rcases hres : (Conn.reader ctxD s acqCh rch nh clA clW2 clS).res with ⟨typ, r⟩ | e | _
    · right
      simp only [Conn.Reader, hres]
      rw [reader_msgReadLimit]
    · left
      simp only [Conn.Reader, hres]
    · left
      simp only [Conn.Reader, hres]
  · intro s m
    rfl
  · intro s m lr k st
    by_cases hlt : lr.left < (k : Int)
    · simp only [limitedRead, if_pos hlt]
      constructor
      · intro h
        simp at h
      · intro h
        omega
    · simp only [limitedRead, if_neg hlt]
      constructor
      · intro _
        omega
      · intro _
        trivial

end WS
